import Mathlib

/-!
Verification development for the invoice-processing function app
(`src/function_app.py`).  The Python source is shallowly embedded:

* strings are Lean `String`/`List Char`;
* Python `None`-able values are `Option`;
* Python `float` results are modelled as exact rationals `ℚ` (every value a
  claim touches is an exact decimal, so no rounding behaviour is involved);
* raising code is modelled with `Except`/`Option`;
* the SQL connection (external collaborator, python-tds with
  `autocommit=False`) is modelled by the standard transaction semantics:
  statements executed inside the `with` block become visible only at
  `conn.commit()`; leaving the block through an exception discards them.

Every definition mirrors the corresponding Python function, keeping its name.
-/

/-- Python `str.replace(old, new)` on explicit character lists: replaces all
non-overlapping occurrences of `old`, scanning left to right.  (The Python
behaviour for an empty `old` pattern — inserting `new` between every pair of
characters — is not modelled; every call site in the source uses a non-empty
single-character pattern.) -/
def pyStrReplaceAux (old new : List Char) : Nat → List Char → List Char
  | _, [] => []
  | 0, s => s
  | fuel + 1, c :: cs =>
    if old ≠ [] ∧ old.isPrefixOf (c :: cs) then
      new ++ pyStrReplaceAux old new fuel ((c :: cs).drop old.length)
    else
      c :: pyStrReplaceAux old new fuel cs

def pyStrReplace (s old new : List Char) : List Char :=
  pyStrReplaceAux old new s.length s

/-- Python `str.replace` lifted to `String`. -/
def pyReplace (s : String) (old new : String) : String :=
  ⟨pyStrReplace s.data old.data new.data⟩

/-- Python `os.path.basename` for POSIX paths (the blob paths of this app use
forward slashes): everything after the last `/`. -/
def pyBasename (p : String) : String :=
  ⟨((p.data.reverse.takeWhile (fun c => c ≠ '/')).reverse)⟩

/-- Index (from the start) of the last occurrence of `c` in `s`, or `none`;
mirrors Python `str.rfind` (which returns `-1` when absent). -/
def pyRfind (s : List Char) (c : Char) : Option Nat :=
  let rec go : List Char → Nat → Option Nat → Option Nat
    | [], _, acc => acc
    | x :: xs, i, acc => go xs (i + 1) (if x = c then some i else acc)
  go s 0 none

/-- The root part of Python `os.path.splitext` (POSIX rules): split at the
last dot, except that dots leading the final path component never start an
extension. -/
def pySplitextRoot (p : String) : String :=
  let s := p.data
  let sepIdx : Int := match pyRfind s '/' with | some i => (i : Int) | none => -1
  match pyRfind s '.' with
  | none => p
  | some dotIdx =>
    if (dotIdx : Int) > sepIdx then
      -- an extension only counts if some non-dot character precedes the dot
      -- within the final component
      let compStart := (sepIdx + 1).toNat
      if (List.range (dotIdx - compStart)).any
          (fun k => s.getD (compStart + k) '.' ≠ '.') then
        ⟨s.take dotIdx⟩
      else p
    else p

/-- Characters stripped by Python `float(...)` around the numeric literal
(ASCII whitespace; the source has already removed `' '` and `' '`). -/
def isPySpace (c : Char) : Bool :=
  c = ' ' ∨ c = '\t' ∨ c = '\n' ∨ c = '\r' ∨ c = '\x0b' ∨ c = '\x0c'

/-- Numeric value of a digit string (most significant first). -/
def digitsToNat (l : List Char) : Nat :=
  l.foldl (fun a c => a * 10 + (c.toNat - 48)) 0

/-- Exponent part of the Python float literal grammar: either nothing, or
`e`/`E`, an optional sign and a non-empty digit string, consuming the whole
rest of the input. -/
def parseExpPart (r : List Char) : Option Int :=
  match r with
  | [] => some 0
  | e :: r1 =>
    if e = 'e' ∨ e = 'E' then
      let sr : Int × List Char :=
        match r1 with
        | '+' :: r2 => (1, r2)
        | '-' :: r2 => (-1, r2)
        | r2 => (1, r2)
      let ds := sr.2.takeWhile Char.isDigit
      if ds ≠ [] ∧ sr.2.dropWhile Char.isDigit = [] then
        some (sr.1 * (digitsToNat ds : Int))
      else none
    else none

/-- A well-formed decimal literal accepted by Python `float`: sign, integer
digits, fractional digits, decimal exponent. -/
structure DecLit where
  neg : Bool
  intDigits : List Char
  fracDigits : List Char
  exp : Int
deriving DecidableEq, Repr

/-- Mantissa-and-exponent part of the Python float literal grammar:
`digits [. digits] [exp]` or `[digits] . digits [exp]` (at least one digit
overall; a trailing lone dot as in `123456.` is accepted). -/
def parseFloatBody (neg : Bool) (r : List Char) : Option DecLit :=
  let intPart := r.takeWhile Char.isDigit
  let r1 := r.dropWhile Char.isDigit
  match r1 with
  | '.' :: r2 =>
    let fracPart := r2.takeWhile Char.isDigit
    let r3 := r2.dropWhile Char.isDigit
    if intPart = [] ∧ fracPart = [] then none
    else
      match parseExpPart r3 with
      | some e => some ⟨neg, intPart, fracPart, e⟩
      | none => none
  | _ =>
    if intPart = [] then none
    else
      match parseExpPart r1 with
      | some e => some ⟨neg, intPart, [], e⟩
      | none => none

/-- Decimal literal accepted by Python `float(s)`: optional surrounding ASCII
whitespace, optional sign, then `digits [. digits] [e sign digits]`.  The
`inf`/`nan` literals (outside ℚ) and digit-group underscores are not
modelled; no input reachable from this source's call site uses them. -/
def pyFloatLit (s : String) : Option DecLit :=
  let t := (s.data.dropWhile isPySpace).reverse.dropWhile isPySpace |>.reverse
  match t with
  | '+' :: r => parseFloatBody false r
  | '-' :: r => parseFloatBody true r
  | r => parseFloatBody false r

/-- Exact rational value of a decimal literal. -/
def DecLit.toRat (d : DecLit) : ℚ :=
  (if d.neg then -1 else 1) *
    ((digitsToNat d.intDigits : ℚ) +
      (digitsToNat d.fracDigits : ℚ) / (10 : ℚ) ^ d.fracDigits.length) *
    (10 : ℚ) ^ d.exp

/-- Python `float(s)`, as an exact rational. -/
def pyFloat (s : String) : Option ℚ :=
  (pyFloatLit s).map DecLit.toRat

/-- Error raised by Python `float(...)` on unparsable text (ValueError). -/
inductive AmountError where
  | valueError
deriving DecidableEq, Repr

/-- Separator normalisation applied by `to_amount` before parsing, mirroring
`str(s).replace(" ", "").replace(" ","").replace(".", "").replace(",", ".")`:
ASCII spaces and non-breaking spaces removed, every dot removed, every comma
turned into a dot. -/
def normalizeAmountStr (s : String) : String :=
  pyReplace (pyReplace (pyReplace (pyReplace s " " "") " " "") "." "") "," "."

deriving instance DecidableEq for Except

/-- Embedding of `to_amount` (src/function_app.py lines 93-95): an absent
value yields `0.0`; otherwise the normalised text is handed to `float`,
whose ValueError propagates. -/
def to_amount (s : Option String) : Except AmountError ℚ :=
  match s with
  | none => Except.ok 0
  | some s =>
    match pyFloat (normalizeAmountStr s) with
    | some q => Except.ok q
    | none => Except.error AmountError.valueError

/-! Dates: the `strptime` formats used by `to_date`

Each format is modelled after CPython's `_strptime` regexes with full
backtracking: `%Y` is exactly four digits, `%m` is `1[0-2]|0[1-9]|[1-9]`,
`%d` is `3[01]|[12]\d|0[1-9]|[1-9]`, `%H` is `2[0-3]|[01]\d|\d`, and
`%M`/`%S` are `[0-5]\d|\d`; the whole input must be consumed, and the
matched numbers must form a valid calendar datetime (otherwise the
`datetime` constructor raises, which `to_date` swallows). -/

/-- A Python `datetime.datetime` value (microseconds unused here). -/
structure Datetime where
  year : Nat
  month : Nat
  day : Nat
  hour : Nat
  minute : Nat
  second : Nat
deriving DecidableEq, Repr

def digitVal (c : Char) : Nat := c.toNat - 48

/-- Alternatives of the `%Y` regex (exactly four digits), each with the rest
of the input, in regex preference order. -/
def matchY : List Char → List (Nat × List Char)
  | a :: b :: c :: d :: r =>
    if a.isDigit ∧ b.isDigit ∧ c.isDigit ∧ d.isDigit then
      [(digitVal a * 1000 + digitVal b * 100 + digitVal c * 10 + digitVal d, r)]
    else []
  | _ => []

/-- Alternatives of the `%m` regex `1[0-2]|0[1-9]|[1-9]`. -/
def matchM : List Char → List (Nat × List Char)
  | a :: b :: r =>
    (if a = '1' ∧ '0' ≤ b ∧ b ≤ '2' then [(10 + digitVal b, r)] else []) ++
    (if a = '0' ∧ '1' ≤ b ∧ b ≤ '9' then [(digitVal b, r)] else []) ++
    (if '1' ≤ a ∧ a ≤ '9' then [(digitVal a, b :: r)] else [])
  | [a] => if '1' ≤ a ∧ a ≤ '9' then [(digitVal a, [])] else []
  | [] => []

/-- Alternatives of the `%d` regex `3[01]|[12]\d|0[1-9]|[1-9]`. -/
def matchD : List Char → List (Nat × List Char)
  | a :: b :: r =>
    (if a = '3' ∧ ('0' ≤ b ∧ b ≤ '1') then [(30 + digitVal b, r)] else []) ++
    (if ('1' ≤ a ∧ a ≤ '2') ∧ b.isDigit then [(digitVal a * 10 + digitVal b, r)] else []) ++
    (if a = '0' ∧ '1' ≤ b ∧ b ≤ '9' then [(digitVal b, r)] else []) ++
    (if '1' ≤ a ∧ a ≤ '9' then [(digitVal a, b :: r)] else [])
  | [a] => if '1' ≤ a ∧ a ≤ '9' then [(digitVal a, [])] else []
  | [] => []

/-- Alternatives of the `%H` regex `2[0-3]|[01]\d|\d`. -/
def matchH : List Char → List (Nat × List Char)
  | a :: b :: r =>
    (if a = '2' ∧ ('0' ≤ b ∧ b ≤ '3') then [(20 + digitVal b, r)] else []) ++
    (if ('0' ≤ a ∧ a ≤ '1') ∧ b.isDigit then [(digitVal a * 10 + digitVal b, r)] else []) ++
    (if a.isDigit then [(digitVal a, b :: r)] else [])
  | [a] => if a.isDigit then [(digitVal a, [])] else []
  | [] => []

/-- Alternatives of the `%M` / `%S` regex `[0-5]\d|\d`. -/
def matchMS : List Char → List (Nat × List Char)
  | a :: b :: r =>
    (if ('0' ≤ a ∧ a ≤ '5') ∧ b.isDigit then [(digitVal a * 10 + digitVal b, r)] else []) ++
    (if a.isDigit then [(digitVal a, b :: r)] else [])
  | [a] => if a.isDigit then [(digitVal a, [])] else []
  | [] => []

/-- Backtracking glue: try each alternative in order, keeping the first one
whose continuation succeeds. -/
def firstParse {α β : Type} (alts : List (α × List Char)) (k : α → List Char → Option β) : Option β :=
  match alts with
  | [] => none
  | (a, r) :: rest =>
    match k a r with
    | some b => some b
    | none => firstParse rest k

def isLeapYear (y : Nat) : Bool := (y % 4 = 0 ∧ y % 100 ≠ 0) ∨ y % 400 = 0

def daysInMonth (y m : Nat) : Nat :=
  if m = 2 then (if isLeapYear y then 29 else 28)
  else if m = 4 ∨ m = 6 ∨ m = 9 ∨ m = 11 then 30
  else 31

/-- The validation performed by the `datetime.datetime` constructor:
`MINYEAR ≤ year`, valid month, valid day for that month, valid time fields.
Returns `none` exactly when the constructor would raise `ValueError`. -/
def mkDatetime (y mo d h mi s : Nat) : Option Datetime :=
  if 1 ≤ y ∧ y ≤ 9999 ∧ 1 ≤ mo ∧ mo ≤ 12 ∧ 1 ≤ d ∧ d ≤ daysInMonth y mo ∧
     h ≤ 23 ∧ mi ≤ 59 ∧ s ≤ 59 then
    some ⟨y, mo, d, h, mi, s⟩
  else none

/-- `datetime.strptime(s, "%Y-%m-%d")`, as an option. -/
def strptimeYmd (s : List Char) : Option Datetime :=
  firstParse (matchY s) fun y r =>
    match r with
    | '-' :: r =>
      firstParse (matchM r) fun mo r =>
        match r with
        | '-' :: r =>
          firstParse (matchD r) fun d r =>
            if r = [] then mkDatetime y mo d 0 0 0 else none
        | _ => none
    | _ => none

/-- `datetime.strptime(s, "%Y-%m-%dT%H:%M:%S")`, as an option. -/
def strptimeIsoDT (s : List Char) : Option Datetime :=
  firstParse (matchY s) fun y r =>
    match r with
    | '-' :: r =>
      firstParse (matchM r) fun mo r =>
        match r with
        | '-' :: r =>
          firstParse (matchD r) fun d r =>
            match r with
            | 'T' :: r =>
              firstParse (matchH r) fun h r =>
                match r with
                | ':' :: r =>
                  firstParse (matchMS r) fun mi r =>
                    match r with
                    | ':' :: r =>
                      firstParse (matchMS r) fun sec r =>
                        if r = [] then mkDatetime y mo d h mi sec else none
                    | _ => none
                | _ => none
            | _ => none
        | _ => none
    | _ => none

/-- `datetime.strptime(s, "%d/%m/%Y")`, as an option. -/
def strptimeDmy (s : List Char) : Option Datetime :=
  firstParse (matchD s) fun d r =>
    match r with
    | '/' :: r =>
      firstParse (matchM r) fun mo r =>
        match r with
        | '/' :: r =>
          firstParse (matchY r) fun y r =>
            if r = [] then mkDatetime y mo d 0 0 0 else none
        | _ => none
    | _ => none

/-- Embedding of `to_date` (src/function_app.py lines 86-91): a falsy input
(`None` or the empty string) yields `None`; otherwise the three formats
`"%Y-%m-%d"`, `"%Y-%m-%dT%H:%M:%S"`, `"%d/%m/%Y"` are tried in order and the
first successful parse wins; if none matches, the result is `None`. -/
def to_date (s : Option String) : Option Datetime :=
  match s with
  | none => none
  | some str =>
    if str = "" then none
    else
      match strptimeYmd str.data with
      | some d => some d
      | none =>
        match strptimeIsoDT str.data with
        | some d => some d
        | none => strptimeDmy str.data

/-! The field tree and `extract_value` -/

/-- Plain JSON-like value: the codomain of `extract_value`. -/
inductive Value where
  | null
  | str (s : String)
  | int (n : Int)
  | num (q : ℚ)
  | arr (vs : List Value)
  | obj (kvs : List (String × Value))

/-- Python `a or b` on optional strings: `a` unless it is `None` or the empty
string (both falsy). -/
def pyOrStr (a b : Option String) : Option String :=
  match a with
  | some s => if s = "" then b else some s
  | none => b

/-- A Python `datetime.date` as carried by a date-typed field. -/
structure PyDate where
  year : Nat
  month : Nat
  day : Nat
deriving DecidableEq, Repr

/-- A Python `datetime.time` as carried by a time-typed field. -/
structure PyTime where
  hour : Nat
  minute : Nat
  second : Nat
deriving DecidableEq, Repr

/-- The currency payload of a currency-typed field (azure `CurrencyValue`):
optional amount, code and symbol.  An absent or empty payload (falsy under
Python `if cur:`) is modelled as `none` at the use site. -/
structure CurrencyValue where
  amount : Option ℚ
  currencyCode : Option String
  currencySymbol : Option String
deriving DecidableEq, Repr

def padNat (w n : Nat) : String :=
  let s := toString n
  ⟨List.replicate (w - s.length) '0' ++ s.data⟩

/-- Python `str(...)` on an optional date (`str(None)` is the text `None`;
`str(date)` is the padded ISO form). -/
def pyStrOfOptDate : Option PyDate → String
  | none => "None"
  | some d => padNat 4 d.year ++ "-" ++ padNat 2 d.month ++ "-" ++ padNat 2 d.day

/-- Python `str(...)` on an optional time. -/
def pyStrOfOptTime : Option PyTime → String
  | none => "None"
  | some t => padNat 2 t.hour ++ ":" ++ padNat 2 t.minute ++ ":" ++ padNat 2 t.second

/-- The azure `DocumentField` tree handed to `extract_value`: a type tag
(primary `type` or fallback `value_type`), one optional payload per tag, the
raw textual `content`, and a confidence score. -/
inductive DocumentField where
  | mk
    (type : Option String)
    (value_type : Option String)
    (value_string : Option String)
    (value_date : Option PyDate)
    (value_time : Option PyTime)
    (value_integer : Option Int)
    (value_number : Option ℚ)
    (value_currency : Option CurrencyValue)
    (value_array : Option (List DocumentField))
    (value_object : Option (List (String × DocumentField)))
    (content : String)
    (confidence : ℚ)

def DocumentField.ftype : DocumentField → Option String
  | .mk ty vty _ _ _ _ _ _ _ _ _ _ => pyOrStr ty vty

def DocumentField.content : DocumentField → String
  | .mk _ _ _ _ _ _ _ _ _ _ c _ => c

def DocumentField.confidence : DocumentField → ℚ
  | .mk _ _ _ _ _ _ _ _ _ _ _ cf => cf

mutual

/-- Node-count of a field tree (with its nested containers), used as
recursion fuel for `extract_value_fuel`; any fuel of at least this size
gives the same result (`extract_value_fuel_congr`). -/
def dfSize : DocumentField → Nat
  | DocumentField.mk _ _ _ _ _ _ _ _ va vo _ _ =>
    1 + dfSizeListOpt va + dfSizePairsOpt vo

def dfSizeListOpt : Option (List DocumentField) → Nat
  | none => 0
  | some l => dfSizeList l

def dfSizeList : List DocumentField → Nat
  | [] => 0
  | x :: xs => dfSize x + dfSizeList xs

def dfSizePairsOpt : Option (List (String × DocumentField)) → Nat
  | none => 0
  | some l => dfSizePairs l

def dfSizePairs : List (String × DocumentField) → Nat
  | [] => 0
  | (_, x) :: xs => dfSize x + dfSizePairs xs

end

/-- The type tags `extract_value` dispatches on. -/
def recognizedTags : List String :=
  ["string", "countryRegion", "phoneNumber", "date", "time", "integer",
   "number", "float", "currency", "array", "object", "dictionary", "map"]

/-- Fuel-indexed form of `extract_value`: the fuel argument only makes the
recursion structural (so that it computes by kernel reduction); it never
changes the result as long as `sizeOf f ≤ fuel`, which
`extract_value_fuel_congr` below proves.  `extract_value` instantiates the
fuel with `sizeOf f`. -/
def extract_value_fuel : Nat → DocumentField → Value
  | 0, f => Value.str f.content
  | fuel + 1, DocumentField.mk ty vty vs vd vt vi vn vc va vo content _conf =>
    let ftype := pyOrStr ty vty
    if ftype = some "string" ∨ ftype = some "countryRegion" ∨ ftype = some "phoneNumber" then
      match vs with
      | some s => Value.str s
      | none => Value.null
    else if ftype = some "date" then Value.str (pyStrOfOptDate vd)
    else if ftype = some "time" then Value.str (pyStrOfOptTime vt)
    else if ftype = some "integer" then
      match vi with
      | some n => Value.int n
      | none => Value.null
    else if ftype = some "number" ∨ ftype = some "float" then
      match vn with
      | some q => Value.num q
      | none => Value.null
    else if ftype = some "currency" then
      match vc with
      | some cur =>
        Value.obj
          [("amount", match cur.amount with
                      | some q => Value.num q
                      | none => Value.null),
           ("currency", match pyOrStr cur.currencyCode cur.currencySymbol with
                        | some s => Value.str s
                        | none => Value.null)]
      | none => Value.null
    else if ftype = some "array" then
      match va with
      | some l => Value.arr (l.map (extract_value_fuel fuel))
      | none => Value.arr []
    else if ftype = some "object" ∨ ftype = some "dictionary" ∨ ftype = some "map" then
      match vo with
      | some l => Value.obj (l.map (fun kv => (kv.1, extract_value_fuel fuel kv.2)))
      | none => Value.obj []
    else Value.str content

/-- Embedding of `extract_value` (src/function_app.py lines 35-52): dispatch
on `field.type or field.value_type`, mapping each recognized tag to its
payload (recursively for containers) and every other tag to the node's raw
`content`. -/
def extract_value (f : DocumentField) : Value :=
  extract_value_fuel (dfSize f + 1) f

/-! Archive -/

/-- Name of the archive artifact produced by `save_json_to_archive`
(src/function_app.py lines 54-57): the base name of the source blob with its
extension replaced by `.json`. -/
def archive_out_name (source_blob_name : String) : String :=
  pySplitextRoot (pyBasename source_blob_name) ++ ".json"

/-- Blob-store `upload_blob(..., overwrite=True)` semantics on a named
container: the artifact of that name is replaced if present, created
otherwise. -/
def uploadOverwrite {α : Type} (container : List (String × α)) (name : String) (payload : α) :
    List (String × α) :=
  if container.any (fun kv => kv.1 == name) then
    container.map (fun kv => if kv.1 == name then (name, payload) else kv)
  else
    container ++ [(name, payload)]

/-- Embedding of `save_json_to_archive` (src/function_app.py lines 54-60),
with the serialized payload kept abstract in `α`. -/
def save_json_to_archive {α : Type} (container : List (String × α))
    (source_blob_name : String) (data : α) : List (String × α) :=
  uploadOverwrite container (archive_out_name source_blob_name) data

/-! Persistence: `save_to_db` -/

/-- One entry of the extracted-field map built by `ProcessInvoice`:
`{"value": ..., "confidence": ...}`.  The four business fields read by
`save_to_db` carry text (or `None`), which is what this model records;
`str(s)` on such a value is the identity. -/
structure FieldEntry where
  value : Option String
  confidence : ℚ
deriving DecidableEq, Repr

/-- The extracted-field map (Python dict: unique keys, insertion order). -/
abbrev Fields : Type := List (String × FieldEntry)

/-- Python `dict.get(k)`: `None` when absent. -/
def dictGet {α : Type} (m : List (String × α)) (k : String) : Option α :=
  (m.find? (fun kv => kv.1 == k)).map (fun kv => kv.2)

/-- The read `(fields.get(name) or {}).get("value")`: a missing entry behaves
as the empty dict, whose `value` is `None`. -/
def getFieldValue (fields : Fields) (name : String) : Option String :=
  match dictGet fields name with
  | some e => e.value
  | none => none

/-- Row of `files.AppFile` as inserted by `save_to_db`. -/
structure FileRow where
  sourceName : String
  sourceId : String
  containerName : String
  originalFileName : String
  systemFileName : String
  dateCreation : Datetime
  fileUrl : String
deriving DecidableEq, Repr

/-- Row of `invoices.Invoice` as inserted by `save_to_db`. -/
structure InvoiceRow where
  number : String
  siteId : Int
  refInvoiceStatusId : Int
  isArchived : Bool
  dateIssue : Option Datetime
  dateDue : Option Datetime
  amount : ℚ
  fileId : Option Nat
  dateCreated : Datetime
  createdBy : String
deriving DecidableEq, Repr

/-- Committed contents of the two destination tables. -/
structure DB where
  appFile : List FileRow
  invoice : List InvoiceRow
deriving DecidableEq, Repr

/-- Environment-sourced configuration (App Settings). -/
structure Config where
  defaultSiteId : Int
  defaultStatusId : Int
  createdBy : String
deriving DecidableEq, Repr

/-- Behaviour of the external SQL server during one `save_to_db` call:
whether the connection can be opened, whether each `INSERT` statement
succeeds, and the identity value returned by `OUTPUT INSERTED.Id` (from
`cur.fetchone()`, hence optional). -/
structure TxBehavior where
  connectFails : Bool
  fileInsertFails : Bool
  invoiceInsertFails : Bool
  generatedId : Option Nat
deriving DecidableEq, Repr

/-- Exceptions that can escape `save_to_db`. -/
inductive DbError where
  | amountFormat
  | connectFail
  | insertFail
deriving DecidableEq, Repr

/-- Embedding of `save_to_db` (src/function_app.py lines 78-127).

Stateful reading: the committed database is passed in and the committed
database is returned.  The connection runs with `autocommit=False`, so rows
written by `cur.execute` become durable only at `conn.commit()`, which the
source reaches after both inserts; every exceptional exit leaves the
`with` block without committing and the uncommitted rows are discarded by
the server.  Accordingly an exceptional result carries no new state: the
caller's database is unchanged.  Amount coercion happens before the
connection is opened, so its ValueError aborts everything. -/
def save_to_db (cfg : Config) (fields : Fields)
    (blob_name account_url container : String)
    (db : DB) (beh : TxBehavior) (now : Datetime) : Except DbError DB :=
  let num := getFieldValue fields "NumeroFacture"
  let issue := getFieldValue fields "DateEmission"
  let due := getFieldValue fields "DateEcheance"
  let amt := getFieldValue fields "MontantTotal"
  let date_issue := to_date issue
  let date_due := to_date due
  match to_amount amt with
  | Except.error _ => Except.error DbError.amountFormat
  | Except.ok amount =>
    let original := pyBasename blob_name
    let file_url := account_url ++ "/" ++ container ++ "/" ++ original
    if beh.connectFails then Except.error DbError.connectFail
    else if beh.fileInsertFails then Except.error DbError.insertFail
    else
      -- uncommitted working state after the first INSERT
      let db1 : DB :=
        { db with
          appFile := db.appFile ++
            [⟨"blobTrigger", blob_name, container, original, original, now, file_url⟩] }
      let file_id : Option Nat := beh.generatedId
      if beh.invoiceInsertFails then Except.error DbError.insertFail
      else
        Except.ok
          { db1 with
            invoice := db1.invoice ++
              [⟨num.getD "", cfg.defaultSiteId, cfg.defaultStatusId, false,
                date_issue, date_due, amount, file_id, now, cfg.createdBy⟩] }

/-- The database visible to the caller after `save_to_db` returns or raises:
on an exception the transaction was not committed, so the prior state is
what remains. -/
def save_to_db_visible (cfg : Config) (fields : Fields)
    (blob_name account_url container : String)
    (db : DB) (beh : TxBehavior) (now : Datetime) : DB :=
  match save_to_db cfg fields blob_name account_url container db beh now with
  | Except.ok db2 => db2
  | Except.error _ => db

/-! Orchestrator: `ProcessInvoice` -/

/-- External state touched by one invocation: the archive container and the
two database tables. -/
structure World where
  archive : List (String × Fields)
  db : DB

/-- Terminal outcome of one invocation.  Every exception raised inside the
`try` block is caught by the trailing `except` (logged, not re-raised), so
the invocation itself always terminates in one of these states. -/
inductive Outcome where
  | committed
  | noDocument
  | failed
deriving DecidableEq, Repr

/-- Behaviour of the external collaborators during one invocation: whether
the document-intelligence call raises, the field maps of the documents it
returns otherwise (already projected through `extract_value`, see
`FieldEntry`), whether the archive upload raises, and the SQL server
behaviour. -/
structure EventEnv where
  analysisFails : Bool
  documents : List Fields
  archiveWriteFails : Bool
  beh : TxBehavior

/-- Embedding of the blob-triggered `ProcessInvoice` handler
(src/function_app.py lines 130-158): analyze, short-circuit on an empty
document list, extract the first document's fields, archive the JSON, then
persist; any exception is caught at the function boundary, leaving whatever
state was already durable. -/
def ProcessInvoice (cfg : Config) (blobName accountUrl : String)
    (env : EventEnv) (now : Datetime) (w : World) : World × Outcome :=
  if env.analysisFails then (w, Outcome.failed)
  else
    match env.documents with
    | [] => (w, Outcome.noDocument)
    | data :: _ =>
      if env.archiveWriteFails then (w, Outcome.failed)
      else
        let w1 : World := { w with archive := save_json_to_archive w.archive blobName data }
        match save_to_db cfg data blobName accountUrl "eem-training" w1.db env.beh now with
        | Except.ok db2 => ({ w1 with db := db2 }, Outcome.committed)
        | Except.error _ => (w1, Outcome.failed)

/-! Helper lemmas -/

lemma pyStrReplaceAux_single_nil (a : Char) :
    ∀ (fuel : Nat) (s : List Char), s.length ≤ fuel →
      pyStrReplaceAux [a] [] fuel s = s.filter (fun c => !(c == a)) := by
  intro fuel
  induction fuel with
  | zero =>
    intro s hs
    cases s with
    | nil => rfl
    | cons c cs => simp at hs
  | succ n ih =>
    intro s hs
    cases s with
    | nil => rfl
    | cons c cs =>
      by_cases hac : a = c
      · subst hac
        simp only [pyStrReplaceAux, List.filter_cons]
        rw [if_pos ⟨by simp, by simp [List.isPrefixOf]⟩]
        simp only [List.length_cons, Nat.add_le_add_iff_right] at hs
        simp [ih cs hs]
      · simp only [pyStrReplaceAux, List.filter_cons]
        rw [if_neg]
        · simp only [List.length_cons, Nat.add_le_add_iff_right] at hs
          have hca : (c == a) = false := by
            simp [beq_iff_eq]
            exact fun h => hac h.symm
          simp [ih cs hs, hca]
        · intro hcontr
          have := hcontr.2
          simp [List.isPrefixOf, beq_iff_eq] at this
          exact hac this

lemma pyStrReplaceAux_single_one (a b : Char) :
    ∀ (fuel : Nat) (s : List Char), s.length ≤ fuel →
      pyStrReplaceAux [a] [b] fuel s = s.map (fun c => if c == a then b else c) := by
  intro fuel
  induction fuel with
  | zero =>
    intro s hs
    cases s with
    | nil => rfl
    | cons c cs => simp at hs
  | succ n ih =>
    intro s hs
    cases s with
    | nil => rfl
    | cons c cs =>
      by_cases hac : a = c
      · subst hac
        simp only [pyStrReplaceAux, List.map_cons]
        rw [if_pos ⟨by simp, by simp [List.isPrefixOf]⟩]
        simp only [List.length_cons, Nat.add_le_add_iff_right] at hs
        simp [ih cs hs]
      · simp only [pyStrReplaceAux, List.map_cons]
        rw [if_neg]
        · simp only [List.length_cons, Nat.add_le_add_iff_right] at hs
          have hca : (c == a) = false := by
            simp [beq_iff_eq]
            exact fun h => hac h.symm
          simp [ih cs hs, hca]
        · intro hcontr
          have := hcontr.2
          simp [List.isPrefixOf, beq_iff_eq] at this
          exact hac this

lemma pyStrReplace_single_nil (a : Char) (s : List Char) :
    pyStrReplace s [a] [] = s.filter (fun c => !(c == a)) :=
  pyStrReplaceAux_single_nil a s.length s le_rfl

lemma pyStrReplace_single_one (a b : Char) (s : List Char) :
    pyStrReplace s [a] [b] = s.map (fun c => if c == a then b else c) :=
  pyStrReplaceAux_single_one a b s.length s le_rfl

/-- Modelled from the spec's own wording of the amount normalisation, for
comparison with the code's `normalizeAmountStr`: strip ASCII spaces, strip
non-breaking spaces, remove every dot, then replace each remaining comma by
a dot. -/
def specNormalizeAmount (s : String) : String :=
  ⟨(((s.data.filter (fun c => c ≠ ' ')).filter (fun c => c ≠ ' ')).filter
      (fun c => c ≠ '.')).map (fun c => if c = ',' then '.' else c)⟩

lemma normalizeAmountStr_eq_spec (s : String) :
    normalizeAmountStr s = specNormalizeAmount s := by
  have hsp : (fun c => !(c == ' ')) = (fun c : Char => decide (c ≠ ' ')) := by
    funext c; by_cases h : c = ' ' <;> simp [h]
  have hnb : (fun c => !(c == ' ')) = (fun c : Char => decide (c ≠ ' ')) := by
    funext c; by_cases h : c = ' ' <;> simp [h]
  have hdot : (fun c => !(c == '.')) = (fun c : Char => decide (c ≠ '.')) := by
    funext c; by_cases h : c = '.' <;> simp [h]
  have hmap : (fun c => if c == ',' then '.' else c) = (fun c : Char => if c = ',' then '.' else c) := by
    funext c; by_cases h : c = ',' <;> simp [h]
  unfold normalizeAmountStr specNormalizeAmount pyReplace
  simp only [pyStrReplace_single_nil, pyStrReplace_single_one, hsp, hnb, hdot, hmap]

lemma uploadOverwrite_overwrites {α : Type} (ar : List (String × α)) (n : String) (p q : α) :
    uploadOverwrite (uploadOverwrite ar n p) n q = uploadOverwrite ar n q := by
  by_cases h : ar.any (fun kv => kv.1 == n)
  · unfold uploadOverwrite
    rw [if_pos h]
    have h2 : (ar.map (fun kv => if kv.1 == n then (n, p) else kv)).any
        (fun kv => kv.1 == n) = true := by
      rw [List.any_eq_true] at h ⊢
      obtain ⟨kv, hkv, hp⟩ := h
      exact ⟨_, List.mem_map_of_mem _ hkv, by simp [hp]⟩
    rw [if_pos h2, if_pos h, List.map_map]
    apply List.map_congr_left
    intro kv _
    by_cases hkv : kv.1 = n
    · simp [Function.comp, hkv]
    · simp [Function.comp, hkv]
  · unfold uploadOverwrite
    rw [if_neg h]
    have h2 : ((ar ++ [(n, p)]).any (fun kv => kv.1 == n)) = true := by
      rw [List.any_append]
      simp
    have h3 : ar.map (fun kv => if kv.1 == n then (n, q) else kv) = ar := by
      have hall := List.any_eq_false.mp (Bool.eq_false_iff.mpr h)
      conv_rhs => rw [(List.map_id ar).symm]
      apply List.map_congr_left
      intro kv hkv
      have hne : ¬kv.1 = n := by simpa using hall kv hkv
      simp [hne]
    rw [if_pos h2, if_neg h, List.map_append, h3]
    simp

lemma dfSize_mk (ty vty vs vd vt vi vn vc va vo content conf) :
    dfSize (DocumentField.mk ty vty vs vd vt vi vn vc va vo content conf) =
      1 + dfSizeListOpt va + dfSizePairsOpt vo := by
  rw [dfSize.eq_def]

lemma dfSizeListOpt_some (l : List DocumentField) :
    dfSizeListOpt (some l) = dfSizeList l := by
  rw [dfSizeListOpt.eq_def]

lemma dfSizeList_cons (x : DocumentField) (xs : List DocumentField) :
    dfSizeList (x :: xs) = dfSize x + dfSizeList xs := by
  rw [dfSizeList.eq_def]

lemma dfSizePairsOpt_some (l : List (String × DocumentField)) :
    dfSizePairsOpt (some l) = dfSizePairs l := by
  rw [dfSizePairsOpt.eq_def]

lemma dfSizePairs_cons (kv : String × DocumentField) (xs : List (String × DocumentField)) :
    dfSizePairs (kv :: xs) = dfSize kv.2 + dfSizePairs xs := by
  cases kv with
  | mk k v => rw [dfSizePairs.eq_def]

lemma dfSize_pos (f : DocumentField) : 1 ≤ dfSize f := by
  cases f with
  | mk ty vty vs vd vt vi vn vc va vo content conf => rw [dfSize_mk]; omega

lemma dfSize_mem_list {x : DocumentField} :
    ∀ {l : List DocumentField}, x ∈ l → dfSize x ≤ dfSizeList l := by
  intro l hx
  induction l with
  | nil => cases hx
  | cons a as ih =>
    rcases List.mem_cons.mp hx with h | h
    · subst h; rw [dfSizeList_cons]; omega
    · have := ih h
      rw [dfSizeList_cons]
      omega

lemma dfSize_mem_pairs {kv : String × DocumentField} :
    ∀ {l : List (String × DocumentField)}, kv ∈ l → dfSize kv.2 ≤ dfSizePairs l := by
  intro l hkv
  induction l with
  | nil => cases hkv
  | cons a as ih =>
    rcases List.mem_cons.mp hkv with h | h
    · subst h; rw [dfSizePairs_cons]; omega
    · have := ih h
      rw [dfSizePairs_cons]
      omega

/-- The fuel of `extract_value_fuel` is irrelevant once it covers the node
count of the tree: the result is the genuine recursive normalisation. -/
lemma extract_value_fuel_congr :
    ∀ (fuel fuel' : Nat) (f : DocumentField), dfSize f ≤ fuel → dfSize f ≤ fuel' →
      extract_value_fuel fuel f = extract_value_fuel fuel' f := by
  intro fuel
  induction fuel with
  | zero =>
    intro fuel' f h _
    have := dfSize_pos f
    omega
  | succ n ih =>
    intro fuel' f h h'
    cases fuel' with
    | zero =>
      have := dfSize_pos f
      omega
    | succ m =>
      cases f with
      | mk ty vty vs vd vt vi vn vc va vo content conf =>
        rw [dfSize_mk] at h h'
        simp only [extract_value_fuel]
        split_ifs
        · rfl
        · rfl
        · rfl
        · rfl
        · rfl
        · rfl
        · cases va with
          | none => rfl
          | some l =>
            rw [dfSizeListOpt_some] at h h'
            show Value.arr (l.map (extract_value_fuel n)) =
              Value.arr (l.map (extract_value_fuel m))
            congr 1
            apply List.map_congr_left
            intro x hx
            have hb := dfSize_mem_list hx
            exact ih m x (by omega) (by omega)
        · cases vo with
          | none => rfl
          | some l =>
            rw [dfSizePairsOpt_some] at h h'
            show Value.obj (l.map (fun kv => (kv.1, extract_value_fuel n kv.2))) =
              Value.obj (l.map (fun kv => (kv.1, extract_value_fuel m kv.2)))
            congr 1
            apply List.map_congr_left
            intro kv hkv
            have hb := dfSize_mem_pairs hkv
            have he := ih m kv.2 (by omega) (by omega)
            rw [he]
        · rfl

/-- Recursion equation of `extract_value`: it satisfies, node by node, the
dispatch of the Python function, recursing through containers. -/
lemma extract_value_mk (ty vty vs vd vt vi vn vc va vo content conf) :
    extract_value (DocumentField.mk ty vty vs vd vt vi vn vc va vo content conf) =
      (if pyOrStr ty vty = some "string" ∨ pyOrStr ty vty = some "countryRegion"
          ∨ pyOrStr ty vty = some "phoneNumber" then
        match vs with
        | some s => Value.str s
        | none => Value.null
      else if pyOrStr ty vty = some "date" then Value.str (pyStrOfOptDate vd)
      else if pyOrStr ty vty = some "time" then Value.str (pyStrOfOptTime vt)
      else if pyOrStr ty vty = some "integer" then
        match vi with
        | some n => Value.int n
        | none => Value.null
      else if pyOrStr ty vty = some "number" ∨ pyOrStr ty vty = some "float" then
        match vn with
        | some q => Value.num q
        | none => Value.null
      else if pyOrStr ty vty = some "currency" then
        match vc with
        | some cur =>
          Value.obj
            [("amount", match cur.amount with
                        | some q => Value.num q
                        | none => Value.null),
             ("currency", match pyOrStr cur.currencyCode cur.currencySymbol with
                          | some s => Value.str s
                          | none => Value.null)]
        | none => Value.null
      else if pyOrStr ty vty = some "array" then
        match va with
        | some l => Value.arr (l.map extract_value)
        | none => Value.arr []
      else if pyOrStr ty vty = some "object" ∨ pyOrStr ty vty = some "dictionary"
          ∨ pyOrStr ty vty = some "map" then
        match vo with
        | some l => Value.obj (l.map (fun kv => (kv.1, extract_value kv.2)))
        | none => Value.obj []
      else Value.str content) := by
  show extract_value_fuel
    (dfSize (DocumentField.mk ty vty vs vd vt vi vn vc va vo content conf) + 1)
    (DocumentField.mk ty vty vs vd vt vi vn vc va vo content conf) = _
  simp only [extract_value_fuel]
  split_ifs
  · rfl
  · rfl
  · rfl
  · rfl
  · rfl
  · rfl
  · cases va with
    | none => rfl
    | some l =>
      show Value.arr (l.map (extract_value_fuel
        (dfSize (DocumentField.mk ty vty vs vd vt vi vn vc (some l) vo content conf)))) =
        Value.arr (l.map extract_value)
      congr 1
      apply List.map_congr_left
      intro x hx
      have hb := dfSize_mem_list hx
      have hsz : dfSize x ≤
          dfSize (DocumentField.mk ty vty vs vd vt vi vn vc (some l) vo content conf) := by
        rw [dfSize_mk, dfSizeListOpt_some]
        omega
      exact extract_value_fuel_congr _ _ x hsz (Nat.le_succ_of_le le_rfl)
  · cases vo with
    | none => rfl
    | some l =>
      show Value.obj (l.map (fun kv => (kv.1, extract_value_fuel
        (dfSize (DocumentField.mk ty vty vs vd vt vi vn vc va (some l) content conf)) kv.2))) =
        Value.obj (l.map (fun kv => (kv.1, extract_value kv.2)))
      congr 1
      apply List.map_congr_left
      intro kv hkv
      have hb := dfSize_mem_pairs hkv
      have hsz : dfSize kv.2 ≤
          dfSize (DocumentField.mk ty vty vs vd vt vi vn vc va (some l) content conf) := by
        rw [dfSize_mk, dfSizePairsOpt_some]
        omega
      rw [extract_value_fuel_congr _ _ kv.2 hsz (Nat.le_succ_of_le le_rfl)]
      rfl
  · rfl

/-! Claims -/

/-- C3: amount coercion — an absent raw value yields zero; otherwise the
text has ASCII and non-breaking spaces stripped, every dot removed, the
remaining commas replaced by dots, and the result parsed as a decimal
number, so that "1.234,56" yields 1234.56 and "0,99" yields 0.99. -/
theorem amount_coercion_spec :
    to_amount none = Except.ok 0
    ∧ (∀ s : String, to_amount (some s) =
        match pyFloat (specNormalizeAmount s) with
        | some q => Except.ok q
        | none => Except.error AmountError.valueError)
    ∧ to_amount (some "1.234,56") = Except.ok (1234.56 : ℚ)
    ∧ to_amount (some "0,99") = Except.ok (0.99 : ℚ) := by
  refine ⟨rfl, ?_, ?_, ?_⟩
  · intro s
    rw [← normalizeAmountStr_eq_spec]
    rfl
  · have h : pyFloatLit (normalizeAmountStr "1.234,56") =
        some ⟨false, ['1', '2', '3', '4'], ['5', '6'], 0⟩ := by decide
    have h1 : digitsToNat ['1', '2', '3', '4'] = 1234 := by decide
    have h2 : digitsToNat ['5', '6'] = 56 := by decide
    simp [to_amount, pyFloat, h, DecLit.toRat, h1, h2]
    norm_num
  · have h : pyFloatLit (normalizeAmountStr "0,99") =
        some ⟨false, ['0'], ['9', '9'], 0⟩ := by decide
    have h1 : digitsToNat ['0'] = 0 := by decide
    have h2 : digitsToNat ['9', '9'] = 99 := by decide
    simp [to_amount, pyFloat, h, DecLit.toRat, h1, h2]
    norm_num

/-- C4: date coercion tries ISO date, ISO date-time without timezone, then
day/month/year with slashes, in that order; the first successful parse wins,
"2024-03-15" and "15/03/2024" both yield March 15 2024, and empty or
unmatched input yields null rather than an error. -/
theorem date_coercion_spec :
    (∀ (s : String) (d : Datetime), strptimeYmd s.data = some d →
        to_date (some s) = some d)
    ∧ (∀ (s : String) (d : Datetime), strptimeYmd s.data = none →
        strptimeIsoDT s.data = some d → to_date (some s) = some d)
    ∧ (∀ s : String, strptimeYmd s.data = none → strptimeIsoDT s.data = none →
        to_date (some s) = strptimeDmy s.data)
    ∧ to_date (some "2024-03-15") = some ⟨2024, 3, 15, 0, 0, 0⟩
    ∧ to_date (some "15/03/2024") = some ⟨2024, 3, 15, 0, 0, 0⟩
    ∧ to_date (some "not-a-date") = none
    ∧ to_date (some "") = none
    ∧ to_date none = none := by
  refine ⟨?_, ?_, ?_, by decide, by decide, by decide, by decide, rfl⟩
  · intro s d h
    have hs : ¬(s = "") := by
      intro he
      subst he
      have hz : strptimeYmd ("" : String).data = none := rfl
      rw [hz] at h
      exact Option.noConfusion h
    simp only [to_date]
    rw [if_neg hs, h]
  · intro s d h1 h2
    have hs : ¬(s = "") := by
      intro he
      subst he
      have hz : strptimeIsoDT ("" : String).data = none := rfl
      rw [hz] at h2
      exact Option.noConfusion h2
    simp only [to_date]
    rw [if_neg hs, h1, h2]
  · intro s h1 h2
    by_cases hs : s = ""
    · subst hs
      have hz : strptimeDmy ("" : String).data = none := rfl
      rw [hz]
      rfl
    · simp only [to_date]
      rw [if_neg hs, h1, h2]

/-- C4 witness: the first-format clause applied at the concrete input
"2024-03-15". -/
theorem date_coercion_spec_witness :
    to_date (some "2024-03-15") = some ⟨2024, 3, 15, 0, 0, 0⟩ :=
  date_coercion_spec.1 "2024-03-15" ⟨2024, 3, 15, 0, 0, 0⟩ (by decide)

/-- C6 counterexample: on US-style input "1234.56" the separator
substitution produces "123456" (the dot is removed), not the "123456."
asserted by the claim. -/
theorem us_decimal_claim_counterexample :
    normalizeAmountStr "1234.56" ≠ "123456."
    ∧ normalizeAmountStr "1234.56" = "123456" := by
  exact ⟨by decide, by decide⟩

/-- C6 (amended): for input already using a dot as decimal separator, such
as US-style "1234.56", the amount coercion rule corrupts the value: after
separator substitution the input becomes "123456", which parses to the
wrong value 123456 — in particular it does not yield 1234.56. -/
theorem us_decimal_corruption :
    normalizeAmountStr "1234.56" = "123456"
    ∧ to_amount (some "1234.56") = Except.ok (123456 : ℚ)
    ∧ (123456 : ℚ) ≠ (1234.56 : ℚ) := by
  refine ⟨by decide, ?_, by norm_num⟩
  have h : pyFloatLit (normalizeAmountStr "1234.56") =
      some ⟨false, ['1', '2', '3', '4', '5', '6'], [], 0⟩ := by decide
  have h1 : digitsToNat ['1', '2', '3', '4', '5', '6'] = 123456 := by decide
  have h2 : digitsToNat ([] : List Char) = 0 := rfl
  simp [to_amount, pyFloat, h, DecLit.toRat, h1, h2]

/-- C9: for every source path the archive artifact name is the path's base
name with its extension replaced by ".json" ("invoices/facture2.pdf" gives
"facture2.json"), and re-archiving the same source path overwrites the
prior artifact rather than producing a duplicate. -/
theorem archive_naming_and_idempotence :
    archive_out_name "invoices/facture2.pdf" = "facture2.json"
    ∧ (∀ p : String, archive_out_name p = pySplitextRoot (pyBasename p) ++ ".json")
    ∧ (∀ (ar : List (String × Fields)) (src : String) (d1 d2 : Fields),
        save_json_to_archive (save_json_to_archive ar src d1) src d2 =
          save_json_to_archive ar src d2) :=
  ⟨by decide, fun p => rfl,
   fun ar src d1 d2 => uploadOverwrite_overwrites ar (archive_out_name src) d1 d2⟩

/-- C5: the field value normalizer is a pure total function (embedded as a
total recursive Lean function, so it is defined — never raises — on every
well-formed Field Node, including nested and empty containers), and any
unrecognized type tag yields the node's raw textual content verbatim;
absent containers normalize to empty containers rather than failing. -/
theorem extract_value_total_fallback :
    (∀ (f : DocumentField) (t : String), f.ftype = some t → t ∉ recognizedTags →
        extract_value f = Value.str f.content)
    ∧ (∀ f : DocumentField, f.ftype = none → extract_value f = Value.str f.content)
    ∧ (∀ ty vty vs vd vt vi vn vc vo content conf,
        pyOrStr ty vty = some "array" →
        extract_value (DocumentField.mk ty vty vs vd vt vi vn vc none vo content conf) =
          Value.arr [])
    ∧ (∀ ty vty vs vd vt vi vn vc va content conf,
        pyOrStr ty vty = some "object" →
        extract_value (DocumentField.mk ty vty vs vd vt vi vn vc va none content conf) =
          Value.obj []) := by
  refine ⟨?_, ?_, ?_, ?_⟩
  · intro f t h hn
    simp only [recognizedTags, List.mem_cons, List.not_mem_nil, or_false] at hn
    push_neg at hn
    obtain ⟨h1, h2, h3, h4, h5, h6, h7, h8, h9, h10, h11, h12, h13⟩ := hn
    cases f with
    | mk ty vty vs vd vt vi vn vc va vo content conf =>
      have hf : pyOrStr ty vty = some t := h
      have c1 : ¬(pyOrStr ty vty = some "string" ∨ pyOrStr ty vty = some "countryRegion"
          ∨ pyOrStr ty vty = some "phoneNumber") := by
        rw [hf]; simp [h1, h2, h3]
      have c2 : ¬(pyOrStr ty vty = some "date") := by rw [hf]; simp [h4]
      have c3 : ¬(pyOrStr ty vty = some "time") := by rw [hf]; simp [h5]
      have c4 : ¬(pyOrStr ty vty = some "integer") := by rw [hf]; simp [h6]
      have c5 : ¬(pyOrStr ty vty = some "number" ∨ pyOrStr ty vty = some "float") := by
        rw [hf]; simp [h7, h8]
      have c6 : ¬(pyOrStr ty vty = some "currency") := by rw [hf]; simp [h9]
      have c7 : ¬(pyOrStr ty vty = some "array") := by rw [hf]; simp [h10]
      have c8 : ¬(pyOrStr ty vty = some "object" ∨ pyOrStr ty vty = some "dictionary"
          ∨ pyOrStr ty vty = some "map") := by
        rw [hf]; simp [h11, h12, h13]
      show extract_value (DocumentField.mk ty vty vs vd vt vi vn vc va vo content conf) =
        Value.str content
      rw [extract_value_mk, if_neg c1, if_neg c2, if_neg c3, if_neg c4, if_neg c5,
        if_neg c6, if_neg c7, if_neg c8]
  · intro f h
    cases f with
    | mk ty vty vs vd vt vi vn vc va vo content conf =>
      have hf : pyOrStr ty vty = none := h
      have c1 : ¬(pyOrStr ty vty = some "string" ∨ pyOrStr ty vty = some "countryRegion"
          ∨ pyOrStr ty vty = some "phoneNumber") := by rw [hf]; simp
      have c2 : ¬(pyOrStr ty vty = some "date") := by rw [hf]; simp
      have c3 : ¬(pyOrStr ty vty = some "time") := by rw [hf]; simp
      have c4 : ¬(pyOrStr ty vty = some "integer") := by rw [hf]; simp
      have c5 : ¬(pyOrStr ty vty = some "number" ∨ pyOrStr ty vty = some "float") := by
        rw [hf]; simp
      have c6 : ¬(pyOrStr ty vty = some "currency") := by rw [hf]; simp
      have c7 : ¬(pyOrStr ty vty = some "array") := by rw [hf]; simp
      have c8 : ¬(pyOrStr ty vty = some "object" ∨ pyOrStr ty vty = some "dictionary"
          ∨ pyOrStr ty vty = some "map") := by rw [hf]; simp
      show extract_value (DocumentField.mk ty vty vs vd vt vi vn vc va vo content conf) =
        Value.str content
      rw [extract_value_mk, if_neg c1, if_neg c2, if_neg c3, if_neg c4, if_neg c5,
        if_neg c6, if_neg c7, if_neg c8]
  · intro ty vty vs vd vt vi vn vc vo content conf hf
    have c1 : ¬(pyOrStr ty vty = some "string" ∨ pyOrStr ty vty = some "countryRegion"
        ∨ pyOrStr ty vty = some "phoneNumber") := by rw [hf]; simp
    have c2 : ¬(pyOrStr ty vty = some "date") := by rw [hf]; simp
    have c3 : ¬(pyOrStr ty vty = some "time") := by rw [hf]; simp
    have c4 : ¬(pyOrStr ty vty = some "integer") := by rw [hf]; simp
    have c5 : ¬(pyOrStr ty vty = some "number" ∨ pyOrStr ty vty = some "float") := by
      rw [hf]; simp
    have c6 : ¬(pyOrStr ty vty = some "currency") := by rw [hf]; simp
    rw [extract_value_mk, if_neg c1, if_neg c2, if_neg c3, if_neg c4, if_neg c5,
      if_neg c6, if_pos hf]
  · intro ty vty vs vd vt vi vn vc va content conf hf
    have c1 : ¬(pyOrStr ty vty = some "string" ∨ pyOrStr ty vty = some "countryRegion"
        ∨ pyOrStr ty vty = some "phoneNumber") := by rw [hf]; simp
    have c2 : ¬(pyOrStr ty vty = some "date") := by rw [hf]; simp
    have c3 : ¬(pyOrStr ty vty = some "time") := by rw [hf]; simp
    have c4 : ¬(pyOrStr ty vty = some "integer") := by rw [hf]; simp
    have c5 : ¬(pyOrStr ty vty = some "number" ∨ pyOrStr ty vty = some "float") := by
      rw [hf]; simp
    have c6 : ¬(pyOrStr ty vty = some "currency") := by rw [hf]; simp
    have c7 : ¬(pyOrStr ty vty = some "array") := by rw [hf]; simp
    have c8 : (pyOrStr ty vty = some "object" ∨ pyOrStr ty vty = some "dictionary"
        ∨ pyOrStr ty vty = some "map") := Or.inl hf
    rw [extract_value_mk, if_neg c1, if_neg c2, if_neg c3, if_neg c4, if_neg c5,
      if_neg c6, if_neg c7, if_pos c8]

/-- C5 witness: a node with the unrecognized tag "signature" normalizes to
its raw content. -/
theorem extract_value_total_fallback_witness :
    extract_value (DocumentField.mk (some "signature") none none none none none none
      none none none "raw text" 1) = Value.str "raw text" :=
  extract_value_total_fallback.1 _ "signature" rfl (by decide)

/-- C1: the File Record insert and the Invoice Record insert form one atomic
unit of work: the call returns successfully only when both inserts succeed,
having appended exactly one row to each table, and if either insert is
forced to fail the call raises and the database visible afterwards is the
original one — zero rows from that event in either table. -/
theorem save_to_db_atomicity :
    ∀ (cfg : Config) (fields : Fields) (blob url cont : String)
      (db : DB) (beh : TxBehavior) (now : Datetime),
      (∀ db2 : DB, save_to_db cfg fields blob url cont db beh now = Except.ok db2 →
        beh.fileInsertFails = false ∧ beh.invoiceInsertFails = false ∧
        ∃ fr ir, db2.appFile = db.appFile ++ [fr] ∧ db2.invoice = db.invoice ++ [ir])
      ∧ (beh.fileInsertFails = true ∨ beh.invoiceInsertFails = true →
        (∃ e, save_to_db cfg fields blob url cont db beh now = Except.error e) ∧
        save_to_db_visible cfg fields blob url cont db beh now = db) := by
  intro cfg fields blob url cont db beh now
  rcases hA : to_amount (getFieldValue fields "MontantTotal") with e | amount
  · constructor
    · intro db2 hok
      simp [save_to_db, hA] at hok
    · intro _
      exact ⟨⟨DbError.amountFormat, by simp [save_to_db, hA]⟩,
             by simp [save_to_db_visible, save_to_db, hA]⟩
  · by_cases hc : beh.connectFails
    · constructor
      · intro db2 hok
        simp [save_to_db, hA, hc] at hok
      · intro _
        exact ⟨⟨DbError.connectFail, by simp [save_to_db, hA, hc]⟩,
               by simp [save_to_db_visible, save_to_db, hA, hc]⟩
    · by_cases hf : beh.fileInsertFails
      · constructor
        · intro db2 hok
          simp [save_to_db, hA, hc, hf] at hok
        · intro _
          exact ⟨⟨DbError.insertFail, by simp [save_to_db, hA, hc, hf]⟩,
                 by simp [save_to_db_visible, save_to_db, hA, hc, hf]⟩
      · by_cases hi : beh.invoiceInsertFails
        · constructor
          · intro db2 hok
            simp [save_to_db, hA, hc, hf, hi] at hok
          · intro _
            exact ⟨⟨DbError.insertFail, by simp [save_to_db, hA, hc, hf, hi]⟩,
                   by simp [save_to_db_visible, save_to_db, hA, hc, hf, hi]⟩
        · constructor
          · intro db2 hok
            simp [save_to_db, hA, hc, hf, hi] at hok
            refine ⟨by simpa using hf, by simpa using hi, ?_⟩
            rw [← hok]
            exact ⟨_, _, rfl, rfl⟩
          · intro hfail
            rcases hfail with h | h
            · exact absurd h hf
            · exact absurd h hi

/-- C1 witness: a forced failure of the invoice insert after a successful
file insert leaves the visible database unchanged. -/
theorem save_to_db_atomicity_witness :
    (∃ e, save_to_db ⟨1, 1, "function-app"⟩ [] "eem-training/facture.pdf" "https://acct"
        "eem-training" ⟨[], []⟩ ⟨false, false, true, some 1⟩ ⟨2024, 1, 1, 0, 0, 0⟩ =
        Except.error e)
    ∧ save_to_db_visible ⟨1, 1, "function-app"⟩ [] "eem-training/facture.pdf" "https://acct"
        "eem-training" ⟨[], []⟩ ⟨false, false, true, some 1⟩ ⟨2024, 1, 1, 0, 0, 0⟩ =
        ⟨[], []⟩ :=
  (save_to_db_atomicity ⟨1, 1, "function-app"⟩ [] "eem-training/facture.pdf" "https://acct"
    "eem-training" ⟨[], []⟩ ⟨false, false, true, some 1⟩ ⟨2024, 1, 1, 0, 0, 0⟩).2 (Or.inr rfl)

/-- C2: if the amount text cannot be parsed after normalization, amount
coercion raises before the connection is opened: `save_to_db` raises and the
visible database is unchanged — no File Record and no Invoice Record row,
and in particular the amount is never coerced to zero. -/
theorem amount_error_aborts_persistence :
    ∀ (cfg : Config) (fields : Fields) (blob url cont : String)
      (db : DB) (beh : TxBehavior) (now : Datetime),
      to_amount (getFieldValue fields "MontantTotal") =
          Except.error AmountError.valueError →
      save_to_db cfg fields blob url cont db beh now = Except.error DbError.amountFormat
      ∧ save_to_db_visible cfg fields blob url cont db beh now = db := by
  intro cfg fields blob url cont db beh now hA
  exact ⟨by simp [save_to_db, hA], by simp [save_to_db_visible, save_to_db, hA]⟩

/-- C2 witness: the invalid amount text "abc" aborts the whole persistence
step, leaving both tables empty. -/
theorem amount_error_aborts_persistence_witness :
    save_to_db ⟨1, 1, "function-app"⟩ [("MontantTotal", ⟨some "abc", 1⟩)]
      "eem-training/facture.pdf" "https://acct" "eem-training" ⟨[], []⟩
      ⟨false, false, false, some 1⟩ ⟨2024, 1, 1, 0, 0, 0⟩ = Except.error DbError.amountFormat
    ∧ save_to_db_visible ⟨1, 1, "function-app"⟩ [("MontantTotal", ⟨some "abc", 1⟩)]
      "eem-training/facture.pdf" "https://acct" "eem-training" ⟨[], []⟩
      ⟨false, false, false, some 1⟩ ⟨2024, 1, 1, 0, 0, 0⟩ = ⟨[], []⟩ :=
  amount_error_aborts_persistence ⟨1, 1, "function-app"⟩
    [("MontantTotal", ⟨some "abc", 1⟩)] "eem-training/facture.pdf" "https://acct"
    "eem-training" ⟨[], []⟩ ⟨false, false, false, some 1⟩ ⟨2024, 1, 1, 0, 0, 0⟩ (by decide)

/-- C10: if the File Record insert returns no generated-identifier row
(`cur.fetchone()` yields nothing), the captured identifier is None and the
Invoice Record insert still proceeds with a null file identifier instead of
aborting. -/
theorem missing_generated_id_still_inserts :
    ∀ (cfg : Config) (fields : Fields) (blob url cont : String)
      (db : DB) (beh : TxBehavior) (now : Datetime) (amount : ℚ),
      beh.connectFails = false → beh.fileInsertFails = false →
      beh.invoiceInsertFails = false → beh.generatedId = none →
      to_amount (getFieldValue fields "MontantTotal") = Except.ok amount →
      save_to_db cfg fields blob url cont db beh now = Except.ok
        { appFile := db.appFile ++
            [⟨"blobTrigger", blob, cont, pyBasename blob, pyBasename blob, now,
              url ++ "/" ++ cont ++ "/" ++ pyBasename blob⟩],
          invoice := db.invoice ++
            [⟨(getFieldValue fields "NumeroFacture").getD "", cfg.defaultSiteId,
              cfg.defaultStatusId, false,
              to_date (getFieldValue fields "DateEmission"),
              to_date (getFieldValue fields "DateEcheance"),
              amount, none, now, cfg.createdBy⟩] } := by
  intro cfg fields blob url cont db beh now amount hc hf hi hg hA
  simp [save_to_db, hA, hc, hf, hi, hg]

/-- C10 witness: with an empty field map and a fetch that returns no row,
the invoice row is inserted with FileId = None. -/
theorem missing_generated_id_still_inserts_witness :
    save_to_db ⟨1, 1, "function-app"⟩ [] "eem-training/facture.pdf" "https://acct"
      "eem-training" ⟨[], []⟩ ⟨false, false, false, none⟩ ⟨2024, 1, 1, 0, 0, 0⟩ =
      Except.ok
        { appFile := [⟨"blobTrigger", "eem-training/facture.pdf", "eem-training",
            "facture.pdf", "facture.pdf", ⟨2024, 1, 1, 0, 0, 0⟩,
            "https://acct/eem-training/facture.pdf"⟩],
          invoice := [⟨"", 1, 1, false, none, none, 0, none, ⟨2024, 1, 1, 0, 0, 0⟩,
            "function-app"⟩] } := by
  have h := missing_generated_id_still_inserts ⟨1, 1, "function-app"⟩ []
    "eem-training/facture.pdf" "https://acct" "eem-training" ⟨[], []⟩
    ⟨false, false, false, none⟩ ⟨2024, 1, 1, 0, 0, 0⟩ 0 rfl rfl rfl rfl rfl
  exact h

/-- C7: the persistence step runs only after the archive artifact has been
written: if the archive write raises, the invocation terminates in the
failed state with the world unchanged — the database insert step is skipped
entirely and no File Record or Invoice Record is inserted. -/
theorem archive_failure_skips_persistence :
    ∀ (cfg : Config) (blob url : String) (env : EventEnv) (now : Datetime) (w : World),
      env.analysisFails = false → env.documents ≠ [] → env.archiveWriteFails = true →
      ProcessInvoice cfg blob url env now w = (w, Outcome.failed) := by
  intro cfg blob url env now w ha hd hw
  cases henv : env.documents with
  | nil => exact absurd henv hd
  | cons d ds => simp [ProcessInvoice, ha, henv, hw]

/-- C7 witness: a failing archive write on a one-document event leaves both
the archive and the two tables untouched. -/
theorem archive_failure_skips_persistence_witness :
    ProcessInvoice ⟨1, 1, "function-app"⟩ "eem-training/facture.pdf" "https://acct"
      ⟨false, [[]], true, ⟨false, false, false, none⟩⟩ ⟨2024, 1, 1, 0, 0, 0⟩
      ⟨[], ⟨[], []⟩⟩ = (⟨[], ⟨[], []⟩⟩, Outcome.failed) :=
  archive_failure_skips_persistence ⟨1, 1, "function-app"⟩ "eem-training/facture.pdf"
    "https://acct" ⟨false, [[]], true, ⟨false, false, false, none⟩⟩ ⟨2024, 1, 1, 0, 0, 0⟩
    ⟨[], ⟨[], []⟩⟩ rfl (by simp) rfl

/-- C8: when the analyzer returns zero documents, processing ends in the
NoDocument terminal state with the world unchanged: no archive artifact is
written and no database row is inserted for that event. -/
theorem no_document_terminal_state :
    ∀ (cfg : Config) (blob url : String) (env : EventEnv) (now : Datetime) (w : World),
      env.analysisFails = false → env.documents = [] →
      ProcessInvoice cfg blob url env now w = (w, Outcome.noDocument) := by
  intro cfg blob url env now w ha hd
  simp [ProcessInvoice, ha, hd]

/-- C8 witness: an empty document set produces the NoDocument outcome and
leaves the world unchanged. -/
theorem no_document_terminal_state_witness :
    ProcessInvoice ⟨1, 1, "function-app"⟩ "eem-training/facture.pdf" "https://acct"
      ⟨false, [], false, ⟨false, false, false, none⟩⟩ ⟨2024, 1, 1, 0, 0, 0⟩
      ⟨[], ⟨[], []⟩⟩ = (⟨[], ⟨[], []⟩⟩, Outcome.noDocument) :=
  no_document_terminal_state ⟨1, 1, "function-app"⟩ "eem-training/facture.pdf"
    "https://acct" ⟨false, [], false, ⟨false, false, false, none⟩⟩ ⟨2024, 1, 1, 0, 0, 0⟩
    ⟨[], ⟨[], []⟩⟩ rfl rfl
